import Mathlib

/-!
Verification of the retrieval core of the Physics-_Ai_Tutor repository
(`src/rag_utils.py`, class `RAGKnowledgeBase`).

Modelling conventions (shallow embedding):
* Python strings are sequences of Unicode code points, modelled as `List Nat`
  (`PyStr`).  `str` converts a Lean string literal into that representation.
* Python floats (`1.5`, `1.2`, `0.3`, `0.1` and the SequenceMatcher ratio)
  are modelled as exact rationals (`Rat`).
* `str.lower` is modelled on the ASCII range (the corpus labels and the
  queries exercised by concrete theorems are ASCII where case matters).
* The regex `\b\w+\b` (in `re.findall`) matches exactly the maximal runs of
  word characters; word characters are modelled as ASCII alphanumerics plus
  the underscore.
* `difflib.SequenceMatcher(None, a, b).ratio()` is embedded below
  (`ratioOf`) following difflib: an index map `b2j` for the second string
  with the autojunk rule (strings of length at least 200 drop "popular"
  elements), `find_longest_match` as a fold with the best-match extension
  loops (the junk-set extension phases are identities because the junk set
  is empty when no `isjunk` argument is given), and the recursive
  matching-block decomposition.  The recursion is written with an explicit
  fuel argument that is at least the sum of the two lengths plus one, which
  bounds the depth of the matching-block recursion.
-/

/-- A Python string as a list of Unicode code points. -/
abbrev PyStr := List Nat

/-- Conversion of a Lean string literal to the code-point model. -/
def str (s : String) : PyStr := s.data.map Char.toNat

/-- The apostrophe code point, spelled numerically. -/
def apo : PyStr := [39]

/-- ASCII lowercasing of one code point (model of `str.lower`). -/
def lowerN (n : Nat) : Nat := if 65 ≤ n ∧ n ≤ 90 then n + 32 else n

/-- Model of Python `str.lower`. -/
def lowerStr (s : PyStr) : PyStr := s.map lowerN

/-- Word characters for the regex `\w` (ASCII model). -/
def isWordChar (n : Nat) : Bool :=
  (48 ≤ n && n ≤ 57) || (65 ≤ n && n ≤ 90) || (97 ≤ n && n ≤ 122) || n == 95

/-- Accumulator-based splitting of a string into maximal word-character runs. -/
def wordsAux : PyStr → PyStr → List PyStr
  | [], acc => if acc = [] then [] else [acc.reverse]
  | c :: rest, acc =>
    if isWordChar c then wordsAux rest (c :: acc)
    else if acc = [] then wordsAux rest [] else acc.reverse :: wordsAux rest []

/-- Model of `re.findall(r'\b\w+\b', s)`: the maximal word-character runs of
`s`, in order, duplicates kept. -/
def findallWords (s : PyStr) : List PyStr := wordsAux s []

/-- Model of the Python substring test `needle in hay` for strings. -/
def isSubstrOf : PyStr → PyStr → Bool
  | n, [] => n.isEmpty
  | n, c :: rest => n.isPrefixOf (c :: rest) || isSubstrOf n rest

/-- Number of occurrences of the code point `x` in `b`. -/
def countIn (b : PyStr) (x : Nat) : Nat := (b.filter (fun y => y == x)).length

/-- difflib autojunk rule: in a second sequence of length at least 200, an
element occurring more than `len(b) / 100 + 1` times is "popular" and is
dropped from the index map. -/
def isPopular (b : PyStr) (x : Nat) : Bool :=
  b.length ≥ 200 && countIn b x > b.length / 100 + 1

/-- difflib `b2j`: the ascending list of positions of `x` in `b`, with
popular elements removed (no junk set: `isjunk` is `None` in the source). -/
def b2j (b : PyStr) (x : Nat) : List Nat :=
  if isPopular b x then []
  else (List.range b.length).filter (fun j => b.getD j 0 == x)

/-- Inner loop of difflib `find_longest_match`: for a fixed position `i` of
the first string, walk the candidate positions `js` of `b`, building the new
run-length map and updating the best match.  `j2lenOld` is the map from the
previous `i` (Python reads `j2len.get(j-1, 0)` from the old dictionary).
Python's integer expressions `i-k+1` and `j-k+1` are written `i+1-k` and
`j+1-k` so that natural subtraction computes the same value: a run of length
`k` ending at `(i, j)` always has `k ≤ i+1` and `k ≤ j+1`, so the Python
values are nonnegative. -/
def flmInner (i : Nat) (j2lenOld : Nat → Nat) :
    List Nat → (Nat → Nat) × Nat × Nat × Nat → (Nat → Nat) × Nat × Nat × Nat
  | [], acc => acc
  | j :: rest, (newj2len, besti, bestj, bestsize) =>
    let k := (if j = 0 then 0 else j2lenOld (j - 1)) + 1
    let newj2len2 := fun x => if x = j then k else newj2len x
    if k > bestsize then
      flmInner i j2lenOld rest (newj2len2, i + 1 - k, j + 1 - k, k)
    else
      flmInner i j2lenOld rest (newj2len2, besti, bestj, bestsize)

/-- Outer loop of difflib `find_longest_match` over the positions of the
first string. -/
def flmOuter (a : PyStr) (b2jf : Nat → List Nat) (blo bhi : Nat) :
    List Nat → (Nat → Nat) × Nat × Nat × Nat → (Nat → Nat) × Nat × Nat × Nat
  | [], acc => acc
  | i :: is, (j2len, besti, bestj, bestsize) =>
    let js := (b2jf (a.getD i 0)).filter (fun j => blo ≤ j && j < bhi)
    let acc2 := flmInner i j2len js ((fun _ => 0), besti, bestj, bestsize)
    flmOuter a b2jf blo bhi is (acc2.1, acc2.2)

/-- Leftward extension of the best match (`while besti > alo and bestj > blo
and a[besti-1] == b[bestj-1]`).  The first argument is fuel; the loop runs at
most `besti` times, so calling with fuel `besti` is exact. -/
def extendLower (a b : PyStr) (alo blo : Nat) :
    Nat → Nat → Nat → Nat → Nat × Nat × Nat
  | 0, besti, bestj, bestsize => (besti, bestj, bestsize)
  | fuel + 1, besti, bestj, bestsize =>
    if alo < besti ∧ blo < bestj ∧ a.getD (besti - 1) 0 = b.getD (bestj - 1) 0 then
      extendLower a b alo blo fuel (besti - 1) (bestj - 1) (bestsize + 1)
    else (besti, bestj, bestsize)

/-- Rightward extension of the best match (`while besti+bestsize < ahi and
bestj+bestsize < bhi and a[besti+bestsize] == b[bestj+bestsize]`).  The
first explicit argument is fuel; the loop runs at most `ahi` times. -/
def extendUpper (a b : PyStr) (ahi bhi besti bestj : Nat) :
    Nat → Nat → Nat
  | 0, bestsize => bestsize
  | fuel + 1, bestsize =>
    if besti + bestsize < ahi ∧ bestj + bestsize < bhi ∧
        a.getD (besti + bestsize) 0 = b.getD (bestj + bestsize) 0 then
      extendUpper a b ahi bhi besti bestj fuel (bestsize + 1)
    else bestsize

/-- difflib `find_longest_match` on the slice `a[alo:ahi]`, `b[blo:bhi]`.
The two junk-extension phases of the source are omitted because the junk set
is empty (`isjunk = None`), making them identities. -/
def findLongestMatch (a b : PyStr) (b2jf : Nat → List Nat)
    (alo ahi blo bhi : Nat) : Nat × Nat × Nat :=
  let acc := flmOuter a b2jf blo bhi (List.range' alo (ahi - alo))
    ((fun _ => 0), alo, blo, 0)
  let best := extendLower a b alo blo acc.2.1 acc.2.1 acc.2.2.1 acc.2.2.2
  let bs := extendUpper a b ahi bhi best.1 best.2.1 ahi best.2.2
  (best.1, best.2.1, bs)

/-- Total size of the matching blocks of difflib `get_matching_blocks`,
written as the recursive decomposition around each longest match.  The first
argument is fuel bounding the recursion depth; `(ahi - alo) + (bhi - blo) + 1`
suffices because each recursive call strictly shrinks the combined slice.
(The queue-based loop of the source visits exactly the same subproblems, and
the final merge of adjacent blocks does not change the total size.) -/
def matchingSum (a b : PyStr) (b2jf : Nat → List Nat) :
    Nat → Nat → Nat → Nat → Nat → Nat
  | 0, _, _, _, _ => 0
  | fuel + 1, alo, ahi, blo, bhi =>
    let m := findLongestMatch a b b2jf alo ahi blo bhi
    if m.2.2 = 0 then 0
    else
      matchingSum a b b2jf fuel alo m.1 blo m.2.1 + m.2.2 +
        matchingSum a b b2jf fuel (m.1 + m.2.2) ahi (m.2.1 + m.2.2) bhi

/-- difflib `SequenceMatcher(None, a, b).ratio()`: `2*M/T` where `M` is the
total matched size and `T` the total length, and `1` when both strings are
empty. -/
def ratioOf (a b : PyStr) : Rat :=
  let t := a.length + b.length
  if t = 0 then 1
  else 2 * (matchingSum a b (b2j b) (t + 1) 0 a.length 0 b.length : Rat) / (t : Rat)

/-- One knowledge chunk (JSON object with keys `chunk`, `subtopic`,
`chapter`). -/
structure KnowledgeChunk where
  chunk : PyStr
  subtopic : PyStr
  chapter : PyStr
deriving DecidableEq

/-- A chunk paired with its computed relevance score (the
`{'chunk': ..., 'score': ...}` records of `search_relevant_chunks`). -/
structure ScoredChunk where
  chunk : KnowledgeChunk
  score : Rat
deriving DecidableEq

/-- `RAGKnowledgeBase.similarity_score`: the SequenceMatcher ratio of the
two lowercased strings. -/
def similarity_score (text1 text2 : PyStr) : Rat :=
  ratioOf (lowerStr text1) (lowerStr text2)

/-- The keyword-bonus accumulation loop of `search_relevant_chunks`
(lines 154-158): 0.3 for every query token occurring as a substring of the
chunk text, subtopic or chapter (all already lowercased by the caller). -/
def keywordScoreRaw (query_lower chunk_text subtopic chapter : PyStr) : Rat :=
  (findallWords query_lower).foldl
    (fun acc kw =>
      if isSubstrOf kw chunk_text || isSubstrOf kw subtopic || isSubstrOf kw chapter then
        acc + 3 / 10
      else acc) 0

/-- The total relevance score computed for one chunk inside
`search_relevant_chunks` (lines 143-160). -/
def totalScore (query : PyStr) (c : KnowledgeChunk) : Rat :=
  let query_lower := lowerStr query
  let chunk_text := lowerStr c.chunk
  let subtopic := lowerStr c.subtopic
  let chapter := lowerStr c.chapter
  let content_score := similarity_score query_lower chunk_text
  let subtopic_score := similarity_score query_lower subtopic * (3 / 2)
  let chapter_score := similarity_score query_lower chapter * (6 / 5)
  let keyword_score := keywordScoreRaw query_lower chunk_text subtopic chapter
  content_score + subtopic_score + chapter_score + min keyword_score 1

/-- The scored list built by the corpus loop of `search_relevant_chunks`:
in corpus order, keeping exactly the chunks with total score above the 0.1
relevance floor. -/
def scoredOf (kb : List KnowledgeChunk) (query : PyStr) : List ScoredChunk :=
  kb.filterMap (fun c =>
    let s := totalScore query c
    if s > 1 / 10 then some (ScoredChunk.mk c s) else none)

/-- Stable insertion of a scored chunk into a list, before the first entry
with a strictly smaller score (so an element inserted from the left stays
before later equal-score elements). -/
def insertDesc (x : ScoredChunk) : List ScoredChunk → List ScoredChunk
  | [] => [x]
  | y :: ys => if x.score ≥ y.score then x :: y :: ys else y :: insertDesc x ys

/-- Stable descending sort by score: the model of Python's stable
`list.sort(key=lambda x: x['score'], reverse=True)`.  A stable sort's output
is determined by the comparator, so insertion sort is extensionally the same
function as the source's Timsort. -/
def sortDesc : List ScoredChunk → List ScoredChunk
  | [] => []
  | x :: xs => insertDesc x (sortDesc xs)

/-- `RAGKnowledgeBase.search_relevant_chunks`. -/
def search_relevant_chunks (kb : List KnowledgeChunk) (query : PyStr)
    (top_k : Nat) : List KnowledgeChunk :=
  if kb = [] then []
  else ((sortDesc (scoredOf kb query)).take top_k).map ScoredChunk.chunk

/-- The fixed fallback context string of `get_context_for_query`. -/
def fallbackContext : PyStr := str ("Physics concepts from Class 10 curriculum.")

/-- The f-string block `f"📚 **{chapter}** - {subtopic}:\n{chunk_text}\n"`. -/
def formatChunk (c : KnowledgeChunk) : PyStr :=
  str ("📚 **") ++ c.chapter ++ str ("** - ") ++ c.subtopic ++ str (":\n") ++
    c.chunk ++ str ("\n")

/-- The greedy block-accumulation loop of `get_context_for_query`
(lines 178-192): append a whole block while the running total stays within
the budget, and stop at the first block that would overflow. -/
def greedyParts (max_context_length : Nat) : List PyStr → Nat → List PyStr
  | [], _ => []
  | fc :: rest, current_length =>
    if current_length + fc.length ≤ max_context_length then
      fc :: greedyParts max_context_length rest (current_length + fc.length)
    else []

/-- Model of `"\n".join(parts)`. -/
def joinNl : List PyStr → PyStr
  | [] => []
  | [s] => s
  | s :: s2 :: rest => s ++ (10 :: joinNl (s2 :: rest))

/-- Sum of the lengths of a list of strings. -/
def sumLen (l : List PyStr) : Nat := (l.map List.length).sum

/-- The formatted blocks of the ranked chunks for a query (`top_k = 3`). -/
def contextBlocks (kb : List KnowledgeChunk) (query : PyStr) : List PyStr :=
  (search_relevant_chunks kb query 3).map formatChunk

/-- The blocks actually included by the greedy loop. -/
def contextParts (kb : List KnowledgeChunk) (query : PyStr)
    (max_context_length : Nat) : List PyStr :=
  greedyParts max_context_length (contextBlocks kb query) 0

/-- `RAGKnowledgeBase.get_context_for_query` (the default budget in the
source is 1200; it is passed explicitly here). -/
def get_context_for_query (kb : List KnowledgeChunk) (query : PyStr)
    (max_context_length : Nat) : PyStr :=
  if search_relevant_chunks kb query 3 = [] then fallbackContext
  else joinNl (contextParts kb query max_context_length)

/-- First-seen-order deduplication. -/
def firstSeenDedup (l : List PyStr) : List PyStr :=
  l.foldl (fun acc t => if t ∈ acc then acc else acc ++ [t]) []

/-- Model of Python `list(set(...))`.  CPython's set iteration order is
unspecified; a canonical (first-seen) order is fixed here, and only
order-insensitive facts are proved about results built from it. -/
def pySet (l : List PyStr) : List PyStr := firstSeenDedup l

/-- Truthiness of the optional `chapter` argument of `get_chapter_topics`:
Python's `if not chapter` is taken for both `None` and the empty string. -/
def isFalsy : Option PyStr → Bool
  | none => true
  | some s => s.isEmpty

/-- `RAGKnowledgeBase.get_chapter_topics`. -/
def get_chapter_topics (kb : List KnowledgeChunk) (chapter : Option PyStr) :
    List PyStr :=
  if isFalsy chapter then
    pySet (kb.filterMap (fun c => if c.subtopic = [] then none else some c.subtopic))
  else
    kb.foldl (fun topics c =>
      if isSubstrOf (lowerStr (chapter.getD [])) (lowerStr c.chapter) then
        if c.subtopic ≠ [] ∧ c.subtopic ∉ topics then topics ++ [c.subtopic]
        else topics
      else topics) []

/-- The subtopic label of the tenth sample chunk (apostrophe spliced in by
code point). -/
def ohmsLaw : PyStr := str ("Ohm") ++ apo ++ str ("s Law")

/-- The built-in default corpus written by
`RAGKnowledgeBase._create_sample_knowledge_base` (lines 33-119), transcribed
field by field; apostrophes are spliced in as code point 39. -/
def sampleChunks : List KnowledgeChunk :=
  [ KnowledgeChunk.mk
      (str ("Light is a form of energy which enables us to see objects. We see objects when light emitted or reflected by them reaches our eyes. Light travels in straight lines. This can be observed from the fact that a small source of light casts sharp shadows of opaque objects. The straight-line path of light is called a ray of light."))
      (str ("Nature of Light"))
      (str ("Light - Reflection and Refraction")),
    KnowledgeChunk.mk
      (str ("When light falls on a surface, it can be reflected, absorbed, or transmitted. The phenomenon of bouncing back of light rays from a surface is called reflection. Laws of reflection: (1) The incident ray, reflected ray and normal all lie in the same plane. (2) The angle of incidence is equal to the angle of reflection (∠i = ∠r)."))
      (str ("Reflection of Light"))
      (str ("Light - Reflection and Refraction")),
    KnowledgeChunk.mk
      (str ("A spherical mirror is a mirror whose reflecting surface is part of a sphere. There are two types: Concave mirror (converging mirror) - curves inward, can form real and virtual images. Convex mirror (diverging mirror) - curves outward, always forms virtual, diminished images. The focal length f = R/2, where R is radius of curvature."))
      (str ("Spherical Mirrors"))
      (str ("Light - Reflection and Refraction")),
    KnowledgeChunk.mk
      (str ("Mirror formula: 1/v + 1/u = 1/f, where v = image distance, u = object distance, f = focal length. Magnification m = -v/u = height of image/height of object. For concave mirrors, focal length is positive; for convex mirrors, focal length is negative."))
      (str ("Mirror Formula"))
      (str ("Light - Reflection and Refraction")),
    KnowledgeChunk.mk
      (str ("Refraction is the bending of light when it travels from one transparent medium to another. This happens due to change in speed of light in different media. Laws of refraction: (1) Incident ray, refracted ray and normal lie in the same plane. (2) Snell") ++ apo ++ str ("s law: n₁sin(θ₁) = n₂sin(θ₂), where n is refractive index."))
      (str ("Refraction of Light"))
      (str ("Light - Reflection and Refraction")),
    KnowledgeChunk.mk
      (str ("A lens is a transparent object with at least one curved surface that can converge or diverge light rays. Convex lens (converging lens) - thicker at center, focal length positive, can form real and virtual images. Concave lens (diverging lens) - thinner at center, focal length negative, always forms virtual images."))
      (str ("Lenses"))
      (str ("Light - Reflection and Refraction")),
    KnowledgeChunk.mk
      (str ("Lens formula: 1/v - 1/u = 1/f. Power of lens P = 1/f (in meters), measured in diopters (D). For combination of lenses: P = P₁ + P₂ + ... The human eye works like a camera with a convex lens (crystalline lens) forming real, inverted images on retina."))
      (str ("Lens Formula and Human Eye"))
      (str ("Light - Reflection and Refraction")),
    KnowledgeChunk.mk
      (str ("Electric current is the flow of electric charge through a conductor. SI unit is ampere (A). One ampere = 1 coulomb/second. Current flows from positive terminal to negative terminal (conventional current direction). In metals, current is due to flow of free electrons (opposite to conventional current)."))
      (str ("Electric Current"))
      (str ("Electricity")),
    KnowledgeChunk.mk
      (str ("Electric potential difference (voltage) is the work done per unit charge to move charge between two points. V = W/Q. SI unit is volt (V). One volt = 1 joule/coulomb. Potential difference drives current through a circuit. Higher voltage means more energy per unit charge."))
      (str ("Electric Potential"))
      (str ("Electricity")),
    KnowledgeChunk.mk
      (str ("Ohm") ++ apo ++ str ("s Law states that current through a conductor is directly proportional to potential difference across it, provided temperature remains constant. V = I × R, where V = voltage, I = current, R = resistance. Resistance opposes flow of current. SI unit of resistance is ohm (Ω)."))
      (ohmsLaw)
      (str ("Electricity")),
    KnowledgeChunk.mk
      (str ("Factors affecting resistance: (1) Length - R ∝ l (2) Area of cross-section - R ∝ 1/A (3) Material - depends on resistivity ρ (4) Temperature - for conductors, R increases with temperature. Formula: R = ρl/A. Resistivity is a material property."))
      (str ("Resistance"))
      (str ("Electricity")),
    KnowledgeChunk.mk
      (str ("Series combination: Resistances add up, Rs = R₁ + R₂ + R₃... Current same through all resistors. Parallel combination: 1/Rp = 1/R₁ + 1/R₂ + 1/R₃... Voltage same across all resistors. Parallel combination gives less total resistance than individual resistances."))
      (str ("Resistor Combinations"))
      (str ("Electricity")),
    KnowledgeChunk.mk
      (str ("Electric power is the rate of consumption of electric energy. P = VI = I²R = V²/R. SI unit is watt (W). Electric energy consumed = P × t = VIt. Commercial unit of energy is kilowatt-hour (kWh). 1 kWh = 3.6 × 10⁶ J. Electric bill is based on energy consumed."))
      (str ("Electric Power"))
      (str ("Electricity")),
    KnowledgeChunk.mk
      (str ("A magnetic field exists around a magnet and current-carrying conductor. Magnetic field lines are imaginary lines showing direction of magnetic field. They emerge from North pole and enter South pole. Field lines never intersect. Uniform field has parallel, equally spaced lines."))
      (str ("Magnetic Field"))
      (str ("Magnetic Effects of Electric Current")),
    KnowledgeChunk.mk
      (str ("Current-carrying conductor produces magnetic field. Direction given by Right Hand Thumb Rule: Thumb shows current direction, fingers curl in direction of magnetic field. For circular loop: field lines are circular near wire, straight at center. For solenoid: behaves like bar magnet."))
      (str ("Magnetic Field due to Current"))
      (str ("Magnetic Effects of Electric Current")),
    KnowledgeChunk.mk
      (str ("Force on current-carrying conductor in magnetic field: F = BIl sin θ, where B = magnetic field, I = current, l = length, θ = angle. Direction by Fleming") ++ apo ++ str ("s Left Hand Rule: Thumb = Force, Index finger = Field, Middle finger = Current. Used in electric motors."))
      (str ("Force on Current-carrying Conductor"))
      (str ("Magnetic Effects of Electric Current")),
    KnowledgeChunk.mk
      (str ("Electromagnetic induction: When magnetic flux through a conductor changes, EMF is induced. Faraday") ++ apo ++ str ("s laws: (1) Changing magnetic flux induces EMF. (2) Induced EMF = -dΦ/dt. Fleming") ++ apo ++ str ("s Right Hand Rule gives direction of induced current. Used in generators, transformers."))
      (str ("Electromagnetic Induction"))
      (str ("Magnetic Effects of Electric Current")) ]

/-- The possible shapes of a successfully parsed knowledge-base file:
either a bare list, or an object whose `chunks` key may be absent
(`data.get('chunks', [])`). -/
inductive JsonData where
  | jlist (chunks : List KnowledgeChunk)
  | jdict (chunksField : Option (List KnowledgeChunk))
deriving DecidableEq

/-- The file-system world observed by one call of `load_knowledge_base`:
whether the store file exists, what parsing it yields (`none` models a
raised parse or read error), and whether each of the at most two attempts
to write the default corpus succeeds (`writeOk1` for the attempt inside the
`try` body on the missing-file path, `writeOk2` for the attempt inside the
`except` handler).  JSON serialization is modelled as the identity on chunk
lists: a successful write leaves a file that parses back to the same list. -/
structure KBWorld where
  fileExists : Bool
  parseResult : Option JsonData
  writeOk1 : Bool
  writeOk2 : Bool
deriving DecidableEq

/-- `RAGKnowledgeBase._create_sample_knowledge_base`: writes the default
corpus (which may raise, modelled by `writeOk = false`) and only then
installs it as the loaded corpus. -/
def createSampleKB (writeOk : Bool) : Except Unit (List KnowledgeChunk) :=
  if writeOk then Except.ok sampleChunks else Except.error ()

/-- `RAGKnowledgeBase.load_knowledge_base`: the `try` body reads and parses
the file when it exists (taking `data` itself when it is a list, otherwise
`data.get('chunks', [])`) and synthesizes the default corpus when it does
not; any error raised in the body is caught by the `except` handler, which
synthesizes the default corpus again — and an error raised by that second
synthesis propagates to the caller (`Except.error`). -/
def load_knowledge_base (w : KBWorld) : Except Unit (List KnowledgeChunk) :=
  let tryBody : Except Unit (List KnowledgeChunk) :=
    if w.fileExists then
      match w.parseResult with
      | none => Except.error ()
      | some (JsonData.jlist l) => Except.ok l
      | some (JsonData.jdict cf) => Except.ok (cf.getD [])
    else createSampleKB w.writeOk1
  match tryBody with
  | Except.ok l => Except.ok l
  | Except.error _ => createSampleKB w.writeOk2

/-- ASCII lowercasing is idempotent on one code point. -/
theorem lowerN_idem (n : Nat) : lowerN (lowerN n) = lowerN n := by
  unfold lowerN
  split
  · rename_i h
    rw [if_neg]
    omega
  · rfl

/-- `lowerStr` is idempotent. -/
theorem lowerStr_idem (s : PyStr) : lowerStr (lowerStr s) = lowerStr s := by
  unfold lowerStr
  rw [List.map_map]
  have h : lowerN ∘ lowerN = lowerN := funext lowerN_idem
  rw [h]

/-- `lowerStr` preserves emptiness. -/
theorem lowerStr_eq_nil_iff (s : PyStr) : lowerStr s = [] ↔ s = [] := by
  unfold lowerStr
  simp

/-- The SequenceMatcher ratio of two empty strings is 1. -/
theorem ratioOf_nil_nil : ratioOf [] [] = 1 := rfl

/-- The matching-block total against an empty first string is 0. -/
theorem matchingSum_nil (b : PyStr) (f : Nat → List Nat) (fuel blo bhi : Nat) :
    matchingSum [] b f (fuel + 1) 0 0 blo bhi = 0 := rfl

/-- The SequenceMatcher ratio of the empty string against a non-empty string
is 0. -/
theorem ratioOf_nil_left (b : PyStr) (hb : b ≠ []) : ratioOf [] b = 0 := by
  unfold ratioOf
  have hlen : b.length ≠ 0 := by simpa using hb
  simp only [List.length_nil, Nat.zero_add]
  rw [if_neg hlen]
  rw [matchingSum_nil]
  simp

/-- The SequenceMatcher ratio is never negative. -/
theorem ratioOf_nonneg (a b : PyStr) : 0 ≤ ratioOf a b := by
  unfold ratioOf
  dsimp only
  split
  · norm_num
  · positivity

/-- Sanity check of the ratio embedding: two equal one-character strings
have ratio 1, as in difflib. -/
theorem ratioOf_same_one : ratioOf (str ("a")) (str ("a")) = 1 := by
  have h1 : (str ("a")).length = 1 := rfl
  unfold ratioOf
  dsimp only
  rw [h1]
  rw [show matchingSum (str ("a")) (str ("a")) (b2j (str ("a"))) (1 + 1 + 1) 0 1 0 1 = 1
    from by decide]
  norm_num

/-- Sanity check of the ratio embedding: two equal two-character strings
have ratio 1, as in difflib. -/
theorem ratioOf_same_pair : ratioOf (str ("ab")) (str ("ab")) = 1 := by
  have h1 : (str ("ab")).length = 2 := rfl
  unfold ratioOf
  dsimp only
  rw [h1]
  rw [show matchingSum (str ("ab")) (str ("ab")) (b2j (str ("ab"))) (2 + 2 + 1) 0 2 0 2 = 2
    from by decide]
  norm_num

/-- Sanity check of the ratio embedding: difflib gives 0.8 for "aab" vs
"ab" (matched size 2 over total length 5). -/
theorem ratioOf_aab_ab : ratioOf (str ("aab")) (str ("ab")) = 4 / 5 := by
  have h1 : (str ("aab")).length = 3 := rfl
  have h2 : (str ("ab")).length = 2 := rfl
  unfold ratioOf
  dsimp only
  rw [h1, h2]
  rw [show matchingSum (str ("aab")) (str ("ab")) (b2j (str ("ab"))) (3 + 2 + 1) 0 3 0 2 = 2
    from by decide]
  norm_num

/-- Sanity check of the ratio embedding: difflib gives 2/3 for "abc" vs
"abd" (matched size 2 over total length 6). -/
theorem ratioOf_abc_abd : ratioOf (str ("abc")) (str ("abd")) = 2 / 3 := by
  have h1 : (str ("abc")).length = 3 := rfl
  have h2 : (str ("abd")).length = 3 := rfl
  unfold ratioOf
  dsimp only
  rw [h1, h2]
  rw [show matchingSum (str ("abc")) (str ("abd")) (b2j (str ("abd"))) (3 + 3 + 1) 0 3 0 3 = 2
    from by decide]
  norm_num

/-- The keyword loop starting from accumulator `acc` adds 0.3 for every
matching token. -/
theorem keyword_foldl_eq (chunk_text subtopic chapter : PyStr) :
    ∀ (kws : List PyStr) (acc : Rat),
      kws.foldl
        (fun acc kw =>
          if isSubstrOf kw chunk_text || isSubstrOf kw subtopic || isSubstrOf kw chapter then
            acc + 3 / 10
          else acc) acc =
      acc + 3 / 10 *
        (kws.countP
          (fun kw => isSubstrOf kw chunk_text || isSubstrOf kw subtopic || isSubstrOf kw chapter) : Rat) := by
  intro kws
  induction kws with
  | nil => intro acc; simp
  | cons kw rest ih =>
    intro acc
    by_cases h : (isSubstrOf kw chunk_text || isSubstrOf kw subtopic || isSubstrOf kw chapter) = true
    · simp only [List.foldl_cons, List.countP_cons, h, if_pos, if_true]
      rw [ih]
      push_cast
      ring
    · have h2 : (isSubstrOf kw chunk_text || isSubstrOf kw subtopic || isSubstrOf kw chapter) = false := by
        simpa using h
      simp only [List.foldl_cons, List.countP_cons, h2, if_false]
      rw [ih]
      simp

/-- `keywordScoreRaw` equals 0.3 times the number of matching tokens. -/
theorem keywordScoreRaw_eq (query_lower chunk_text subtopic chapter : PyStr) :
    keywordScoreRaw query_lower chunk_text subtopic chapter =
      3 / 10 *
        ((findallWords query_lower).countP
          (fun kw => isSubstrOf kw chunk_text || isSubstrOf kw subtopic || isSubstrOf kw chapter) : Rat) := by
  unfold keywordScoreRaw
  rw [keyword_foldl_eq]
  simp

/-- `keywordScoreRaw` is never negative. -/
theorem keywordScoreRaw_nonneg (query_lower chunk_text subtopic chapter : PyStr) :
    0 ≤ keywordScoreRaw query_lower chunk_text subtopic chapter := by
  rw [keywordScoreRaw_eq]
  positivity

/-- The keyword bonus for the empty query is 0. -/
theorem keywordScoreRaw_nil (x y z : PyStr) : keywordScoreRaw [] x y z = 0 := rfl

/-- For the empty query, a chunk with non-empty text, subtopic and chapter
scores exactly 0. -/
theorem totalScore_nil_query_zero (c : KnowledgeChunk) (h1 : c.chunk ≠ [])
    (h2 : c.subtopic ≠ []) (h3 : c.chapter ≠ []) : totalScore [] c = 0 := by
  unfold totalScore similarity_score
  dsimp only
  simp only [show lowerStr ([] : PyStr) = [] from rfl]
  have hc : ratioOf [] (lowerStr (lowerStr c.chunk)) = 0 :=
    ratioOf_nil_left _ (by rw [Ne, lowerStr_eq_nil_iff, lowerStr_eq_nil_iff]; exact h1)
  have hs : ratioOf [] (lowerStr (lowerStr c.subtopic)) = 0 :=
    ratioOf_nil_left _ (by rw [Ne, lowerStr_eq_nil_iff, lowerStr_eq_nil_iff]; exact h2)
  have hch : ratioOf [] (lowerStr (lowerStr c.chapter)) = 0 :=
    ratioOf_nil_left _ (by rw [Ne, lowerStr_eq_nil_iff, lowerStr_eq_nil_iff]; exact h3)
  rw [hc, hs, hch, keywordScoreRaw_nil]
  norm_num

/-- For the empty query, a chunk with non-empty text but empty subtopic and
chapter scores exactly 2.7. -/
theorem totalScore_nil_query_bare (t : PyStr) (ht : t ≠ []) :
    totalScore [] (KnowledgeChunk.mk t [] []) = 27 / 10 := by
  unfold totalScore similarity_score
  dsimp only
  simp only [show lowerStr ([] : PyStr) = [] from rfl]
  have hc : ratioOf [] (lowerStr (lowerStr t)) = 0 :=
    ratioOf_nil_left _ (by rw [Ne, lowerStr_eq_nil_iff, lowerStr_eq_nil_iff]; exact ht)
  rw [hc, ratioOf_nil_nil, keywordScoreRaw_nil]
  norm_num

/-- `insertDesc` inserts its element somewhere: the result is a permutation
of consing it. -/
theorem insertDesc_perm (x : ScoredChunk) (l : List ScoredChunk) :
    (insertDesc x l).Perm (x :: l) := by
  induction l with
  | nil => simp [insertDesc]
  | cons y ys ih =>
    unfold insertDesc
    split
    · exact List.Perm.refl _
    · exact (List.Perm.cons y ih).trans (List.Perm.swap x y ys)

/-- `sortDesc` permutes its input. -/
theorem sortDesc_perm (l : List ScoredChunk) : (sortDesc l).Perm l := by
  induction l with
  | nil => exact List.Perm.refl _
  | cons x xs ih =>
    unfold sortDesc
    exact (insertDesc_perm x (sortDesc xs)).trans (List.Perm.cons x ih)

/-- Membership in `insertDesc`. -/
theorem mem_insertDesc (z x : ScoredChunk) (l : List ScoredChunk) :
    z ∈ insertDesc x l ↔ z = x ∨ z ∈ l := by
  rw [(insertDesc_perm x l).mem_iff]
  simp

/-- Membership in `sortDesc`. -/
theorem mem_sortDesc (z : ScoredChunk) (l : List ScoredChunk) :
    z ∈ sortDesc l ↔ z ∈ l := (sortDesc_perm l).mem_iff

/-- Inserting into a descending-sorted list keeps it descending-sorted. -/
theorem insertDesc_pairwise (x : ScoredChunk) (l : List ScoredChunk)
    (hl : l.Pairwise (fun a b => b.score ≤ a.score)) :
    (insertDesc x l).Pairwise (fun a b => b.score ≤ a.score) := by
  induction l with
  | nil => simp [insertDesc]
  | cons y ys ih =>
    unfold insertDesc
    rcases List.pairwise_cons.mp hl with ⟨hy, hys⟩
    split
    · rename_i hxy
      refine List.pairwise_cons.mpr ⟨?_, hl⟩
      intro z hz
      rcases List.mem_cons.mp hz with h | h
      · exact h ▸ hxy
      · exact (hy z h).trans hxy
    · rename_i hxy
      push_neg at hxy
      refine List.pairwise_cons.mpr ⟨?_, ih hys⟩
      intro z hz
      rcases (mem_insertDesc z x ys).mp hz with h | h
      · exact h ▸ hxy.le
      · exact hy z h

/-- `sortDesc` outputs are sorted by descending score. -/
theorem sortDesc_pairwise (l : List ScoredChunk) :
    (sortDesc l).Pairwise (fun a b => b.score ≤ a.score) := by
  induction l with
  | nil => simp [sortDesc]
  | cons x xs ih => exact insertDesc_pairwise x (sortDesc xs) ih

/-- The score-level filter used to state stability. -/
def pScore (s : Rat) (sc : ScoredChunk) : Bool := decide (sc.score = s)

/-- `insertDesc` never moves its element past an element of equal score:
filtering at any fixed score value sees the inserted element first. -/
theorem filter_insertDesc (s : Rat) (x : ScoredChunk) (l : List ScoredChunk) :
    (insertDesc x l).filter (pScore s) =
      if x.score = s then x :: l.filter (pScore s) else l.filter (pScore s) := by
  induction l with
  | nil =>
    by_cases hx : x.score = s
    · simp [insertDesc, pScore, hx]
    · simp [insertDesc, pScore, hx]
  | cons y ys ih =>
    unfold insertDesc
    split
    · rename_i hxy
      by_cases hx : x.score = s
      · simp [pScore, hx]
      · simp [pScore, hx]
    · rename_i hxy
      push_neg at hxy
      by_cases hx : x.score = s
      · have hy : ¬ (y.score = s) := by
          intro hy
          rw [hx] at hxy
          rw [hy] at hxy
          exact lt_irrefl s hxy
        have hyb : pScore s y = false := by simp [pScore, hy]
        simp [List.filter_cons, hyb, ih, hx]
      · by_cases hy : y.score = s
        · have hyb : pScore s y = true := by simp [pScore, hy]
          simp [List.filter_cons, hyb, ih, hx]
        · have hyb : pScore s y = false := by simp [pScore, hy]
          simp [List.filter_cons, hyb, ih, hx]

/-- Stability of `sortDesc`: the subsequence of entries carrying any fixed
score value is exactly the corresponding subsequence of the input, in input
order. -/
theorem sortDesc_filter_eq (l : List ScoredChunk) (s : Rat) :
    (sortDesc l).filter (pScore s) = l.filter (pScore s) := by
  induction l with
  | nil => rfl
  | cons x xs ih =>
    unfold sortDesc
    rw [filter_insertDesc]
    by_cases hx : x.score = s
    · rw [if_pos hx, ih]
      have hxb : pScore s x = true := by simp [pScore, hx]
      simp [List.filter_cons, hxb]
    · rw [if_neg hx, ih]
      have hxb : pScore s x = false := by simp [pScore, hx]
      simp [List.filter_cons, hxb]

/-- Characterization of membership in the scored list. -/
theorem mem_scoredOf (kb : List KnowledgeChunk) (query : PyStr) (sc : ScoredChunk) :
    sc ∈ scoredOf kb query ↔
      sc.chunk ∈ kb ∧ sc.score = totalScore query sc.chunk ∧ sc.score > 1 / 10 := by
  unfold scoredOf
  rw [List.mem_filterMap]
  constructor
  · rintro ⟨c, hc, heq⟩
    dsimp only at heq
    split at heq
    · rename_i h
      injection heq with h2
      subst h2
      exact ⟨hc, rfl, h⟩
    · simp at heq
  · rintro ⟨hc, hs, hgt⟩
    obtain ⟨c0, s0⟩ := sc
    dsimp only at hs hgt ⊢
    subst hs
    exact ⟨c0, hc, by rw [if_pos hgt]⟩

/-- `search_relevant_chunks` always equals the sort-take-project pipeline
(on the empty corpus both sides are empty). -/
theorem search_eq_pipeline (kb : List KnowledgeChunk) (query : PyStr) (k : Nat) :
    search_relevant_chunks kb query k =
      ((sortDesc (scoredOf kb query)).take k).map ScoredChunk.chunk := by
  unfold search_relevant_chunks
  split
  · rename_i h
    subst h
    simp [scoredOf, sortDesc]
  · rfl

/-- The search returns at most `top_k` chunks. -/
theorem search_length_le (kb : List KnowledgeChunk) (query : PyStr) (k : Nat) :
    (search_relevant_chunks kb query k).length ≤ k := by
  rw [search_eq_pipeline, List.length_map]
  exact List.length_take_le _ _

/-- Every returned chunk is a corpus member and clears the relevance floor. -/
theorem search_mem_facts (kb : List KnowledgeChunk) (query : PyStr) (k : Nat)
    (c : KnowledgeChunk) (hc : c ∈ search_relevant_chunks kb query k) :
    c ∈ kb ∧ totalScore query c > 1 / 10 := by
  rw [search_eq_pipeline] at hc
  rcases List.mem_map.mp hc with ⟨sc, hsc, rfl⟩
  have h3 : sc ∈ scoredOf kb query :=
    (mem_sortDesc _ _).mp (List.mem_of_mem_take hsc)
  rcases (mem_scoredOf kb query sc).mp h3 with ⟨h4, h5, h6⟩
  exact ⟨h4, h5 ▸ h6⟩

/-- The returned chunks are ordered by descending total score. -/
theorem search_pairwise (kb : List KnowledgeChunk) (query : PyStr) (k : Nat) :
    (search_relevant_chunks kb query k).Pairwise
      (fun c1 c2 => totalScore query c2 ≤ totalScore query c1) := by
  rw [search_eq_pipeline, List.pairwise_map]
  have hp := sortDesc_pairwise (scoredOf kb query)
  have ht : ((sortDesc (scoredOf kb query)).take k).Pairwise
      (fun a b => b.score ≤ a.score) :=
    List.Pairwise.sublist (List.take_sublist _ _) hp
  refine List.Pairwise.imp_of_mem ?_ ht
  intro a b ha hb hr
  have ha2 := (mem_scoredOf kb query a).mp ((mem_sortDesc _ _).mp (List.mem_of_mem_take ha))
  have hb2 := (mem_scoredOf kb query b).mp ((mem_sortDesc _ _).mp (List.mem_of_mem_take hb))
  rw [← ha2.2.1, ← hb2.2.1]
  exact hr

@[simp] theorem sumLen_nil : sumLen [] = 0 := rfl

@[simp] theorem sumLen_cons (s : PyStr) (l : List PyStr) :
    sumLen (s :: l) = s.length + sumLen l := by
  unfold sumLen
  simp

/-- The greedy loop takes a prefix of the blocks, keeps the accumulated
length within the budget whenever it takes anything, and stops exactly at
the first overflowing block. -/
theorem greedyParts_spec (m : Nat) (blocks : List PyStr) : ∀ cur : Nat,
    ∃ i, i ≤ blocks.length ∧ greedyParts m blocks cur = blocks.take i ∧
      (i = 0 ∨ cur + sumLen (blocks.take i) ≤ m) ∧
      (i = blocks.length ∨ cur + sumLen (blocks.take i) + (blocks.getD i []).length > m) := by
  induction blocks with
  | nil =>
    intro cur
    exact ⟨0, Nat.le_refl 0, rfl, Or.inl rfl, Or.inl rfl⟩
  | cons fc rest ih =>
    intro cur
    by_cases h : cur + fc.length ≤ m
    · obtain ⟨i, hi, heq, hle, hstop⟩ := ih (cur + fc.length)
      refine ⟨i + 1, by simpa using Nat.succ_le_succ hi, ?_, ?_, ?_⟩
      · unfold greedyParts
        rw [if_pos h, heq]
        rfl
      · right
        rcases hle with h0 | h0
        · subst h0
          simpa using h
        · rw [List.take_succ_cons, sumLen_cons]
          omega
      · rcases hstop with h0 | h0
        · left
          simp [h0]
        · right
          rw [List.take_succ_cons, sumLen_cons]
          have e : (fc :: rest).getD (i + 1) [] = rest.getD i [] := rfl
          rw [e]
          omega
    · refine ⟨0, Nat.zero_le _, ?_, Or.inl rfl, Or.inr ?_⟩
      · unfold greedyParts
        rw [if_neg h]
        rfl
      · simp only [List.take_zero, sumLen_nil, List.getD_cons_zero]
        omega

/-- The length of a newline join: total block length plus one separator per
gap. -/
theorem joinNl_length (l : List PyStr) :
    (joinNl l).length = sumLen l + (l.length - 1) := by
  induction l with
  | nil => rfl
  | cons s rest ih =>
    cases rest with
    | nil => simp [joinNl]
    | cons s2 rest2 =>
      have e : joinNl (s :: s2 :: rest2) = s ++ (10 :: joinNl (s2 :: rest2)) := rfl
      rw [e]
      simp only [List.length_append, List.length_cons, sumLen_cons] at ih ⊢
      omega

/-- Membership through the first-seen deduplicating fold. -/
theorem mem_dedup_foldl (x : PyStr) : ∀ (l : List PyStr) (acc : List PyStr),
    (x ∈ l.foldl (fun acc t => if t ∈ acc then acc else acc ++ [t]) acc) ↔
      (x ∈ acc ∨ x ∈ l) := by
  intro l
  induction l with
  | nil => intro acc; simp
  | cons t rest ih =>
    intro acc
    rw [List.foldl_cons, ih]
    by_cases h : t ∈ acc
    · rw [if_pos h]
      constructor
      · rintro (h1 | h1)
        · exact Or.inl h1
        · exact Or.inr (List.mem_cons_of_mem t h1)
      · rintro (h1 | h1)
        · exact Or.inl h1
        · rcases List.mem_cons.mp h1 with h2 | h2
          · exact Or.inl (h2 ▸ h)
          · exact Or.inr h2
    · rw [if_neg h]
      simp only [List.mem_append, List.mem_cons, List.mem_singleton]
      tauto

/-- Membership in `firstSeenDedup`. -/
theorem mem_firstSeenDedup (x : PyStr) (l : List PyStr) :
    x ∈ firstSeenDedup l ↔ x ∈ l := by
  unfold firstSeenDedup
  rw [mem_dedup_foldl]
  simp

/-- The amended description of the category branch of `get_chapter_topics`:
first-seen deduplication of the non-empty subtopics of the chunks whose
chapter contains the argument case-insensitively. -/
def chapterTopicsSpec (kb : List KnowledgeChunk) (ch : PyStr) : List PyStr :=
  firstSeenDedup
    (((kb.filter (fun c => isSubstrOf (lowerStr ch) (lowerStr c.chapter))).map
        (fun c => c.subtopic)).filter (fun t => decide (t ≠ [])))

/-- The one-pass fold of the source equals filter-map-filter-dedup. -/
theorem topics_foldl_eq (ch : PyStr) : ∀ (kb : List KnowledgeChunk) (acc : List PyStr),
    kb.foldl (fun topics c =>
      if isSubstrOf (lowerStr ch) (lowerStr c.chapter) then
        if c.subtopic ≠ [] ∧ c.subtopic ∉ topics then topics ++ [c.subtopic]
        else topics
      else topics) acc =
    (((kb.filter (fun c => isSubstrOf (lowerStr ch) (lowerStr c.chapter))).map
        (fun c => c.subtopic)).filter (fun t => decide (t ≠ []))).foldl
      (fun acc t => if t ∈ acc then acc else acc ++ [t]) acc := by
  intro kb
  induction kb with
  | nil => intro acc; rfl
  | cons c rest ih =>
    intro acc
    by_cases hm : isSubstrOf (lowerStr ch) (lowerStr c.chapter) = true
    · by_cases hs : c.subtopic = []
      · have h1 : ¬ (c.subtopic ≠ [] ∧ c.subtopic ∉ acc) := by simp [hs]
        rw [List.foldl_cons, if_pos hm, if_neg h1, ih]
        have hR : (((c :: rest).filter
              (fun c => isSubstrOf (lowerStr ch) (lowerStr c.chapter))).map
              (fun c => c.subtopic)).filter (fun t => decide (t ≠ [])) =
            ((rest.filter (fun c => isSubstrOf (lowerStr ch) (lowerStr c.chapter))).map
              (fun c => c.subtopic)).filter (fun t => decide (t ≠ [])) := by
          simp [List.filter_cons, hm, hs]
        rw [hR]
      · have hR : (((c :: rest).filter
              (fun c => isSubstrOf (lowerStr ch) (lowerStr c.chapter))).map
              (fun c => c.subtopic)).filter (fun t => decide (t ≠ [])) =
            c.subtopic ::
              ((rest.filter (fun c => isSubstrOf (lowerStr ch) (lowerStr c.chapter))).map
                (fun c => c.subtopic)).filter (fun t => decide (t ≠ [])) := by
          simp [List.filter_cons, hm, hs]
        by_cases ha : c.subtopic ∈ acc
        · have h1 : ¬ (c.subtopic ≠ [] ∧ c.subtopic ∉ acc) := by simp [ha]
          rw [List.foldl_cons, if_pos hm, if_neg h1, ih, hR, List.foldl_cons, if_pos ha]
        · rw [List.foldl_cons, if_pos hm, if_pos ⟨hs, ha⟩, ih, hR, List.foldl_cons,
            if_neg ha]
    · rw [List.foldl_cons, if_neg hm, ih]
      have hR : (((c :: rest).filter
            (fun c => isSubstrOf (lowerStr ch) (lowerStr c.chapter))).map
            (fun c => c.subtopic)).filter (fun t => decide (t ≠ [])) =
          ((rest.filter (fun c => isSubstrOf (lowerStr ch) (lowerStr c.chapter))).map
            (fun c => c.subtopic)).filter (fun t => decide (t ≠ [])) := by
        simp [List.filter_cons, hm]
      rw [hR]

/-- For a non-empty category argument `get_chapter_topics` is the
filter-map-dedup characterization. -/
theorem get_chapter_topics_some_eq (kb : List KnowledgeChunk) (ch : PyStr)
    (h : ch ≠ []) : get_chapter_topics kb (some ch) = chapterTopicsSpec kb ch := by
  unfold get_chapter_topics
  have hf : isFalsy (some ch) = false := by
    cases ch with
    | nil => exact absurd rfl h
    | cons a l => rfl
  simp only [hf, Bool.false_eq_true, if_false]
  unfold chapterTopicsSpec firstSeenDedup
  have e := topics_foldl_eq ch kb []
  simpa using e

/-- Membership in the no-argument result of `get_chapter_topics`. -/
theorem mem_get_chapter_topics_none (kb : List KnowledgeChunk) (s : PyStr) :
    s ∈ get_chapter_topics kb none ↔ s ≠ [] ∧ ∃ c ∈ kb, c.subtopic = s := by
  have e : get_chapter_topics kb none =
      pySet (kb.filterMap (fun c => if c.subtopic = [] then none else some c.subtopic)) := rfl
  rw [e]
  unfold pySet
  rw [mem_firstSeenDedup, List.mem_filterMap]
  constructor
  · rintro ⟨c, hc, heq⟩
    by_cases h : c.subtopic = []
    · rw [if_pos h] at heq
      exact Option.noConfusion heq
    · rw [if_neg h] at heq
      injection heq with h2
      exact ⟨h2 ▸ h, c, hc, h2⟩
  · rintro ⟨hs, c, hc, heq⟩
    refine ⟨c, hc, ?_⟩
    rw [if_neg (by rw [heq]; exact hs), heq]

/-- If the retrieval step returns nothing, the context is the fallback
string. -/
theorem context_fallback_of_search_nil (kb : List KnowledgeChunk) (query : PyStr)
    (m : Nat) (h : search_relevant_chunks kb query 3 = []) :
    get_context_for_query kb query m = fallbackContext := by
  unfold get_context_for_query
  rw [if_pos h]

/-- If the retrieval step returns something, the context is the join of the
greedy parts. -/
theorem context_join_of_search_ne_nil (kb : List KnowledgeChunk) (query : PyStr)
    (m : Nat) (h : search_relevant_chunks kb query 3 ≠ []) :
    get_context_for_query kb query m = joinNl (contextParts kb query m) := by
  unfold get_context_for_query
  rw [if_neg h]

/-- Every default-corpus chunk has non-empty text, subtopic and chapter. -/
theorem sampleChunks_fields_ne_nil :
    ∀ c ∈ sampleChunks, c.chunk ≠ [] ∧ c.subtopic ≠ [] ∧ c.chapter ≠ [] := by
  decide

/-- For the empty query no default-corpus chunk clears the relevance floor. -/
theorem scoredOf_sample_nil : scoredOf sampleChunks [] = [] := by
  unfold scoredOf
  rw [List.filterMap_eq_nil_iff]
  intro c hc
  dsimp only
  rw [totalScore_nil_query_zero c (sampleChunks_fields_ne_nil c hc).1
    (sampleChunks_fields_ne_nil c hc).2.1 (sampleChunks_fields_ne_nil c hc).2.2]
  rw [if_neg (by norm_num)]

/-- A chunk with a one-character text and empty labels, used in concrete
scenarios. -/
def bareChunk : KnowledgeChunk := KnowledgeChunk.mk (str ("a")) [] []

/-- Unfolding one corpus step of the scored-list construction. -/
theorem scoredOf_cons (c : KnowledgeChunk) (kb : List KnowledgeChunk) (query : PyStr) :
    scoredOf (c :: kb) query =
      if totalScore query c > 1 / 10 then
        ScoredChunk.mk c (totalScore query c) :: scoredOf kb query
      else scoredOf kb query := by
  unfold scoredOf
  rw [List.filterMap_cons]
  dsimp only
  by_cases h : totalScore query c > 1 / 10
  · rw [if_pos h, if_pos h]
  · rw [if_neg h, if_neg h]

/-- The singleton/triple scenarios need the search result on corpora of
`bareChunk`s for the empty query; every copy scores 2.7 and survives. -/
theorem search_bare3 :
    search_relevant_chunks [bareChunk, bareChunk, bareChunk] [] 3 =
      [bareChunk, bareChunk, bareChunk] := by
  have hscore : totalScore [] bareChunk = 27 / 10 :=
    totalScore_nil_query_bare (str ("a")) (by decide)
  have hscored : scoredOf [bareChunk, bareChunk, bareChunk] [] =
      [ScoredChunk.mk bareChunk (27 / 10), ScoredChunk.mk bareChunk (27 / 10),
        ScoredChunk.mk bareChunk (27 / 10)] := by
    rw [scoredOf_cons, scoredOf_cons, scoredOf_cons, hscore]
    have hgt : (27 : Rat) / 10 > 1 / 10 := by norm_num
    simp only [if_pos hgt]
    rfl
  have h2 : insertDesc (ScoredChunk.mk bareChunk (27 / 10))
      [ScoredChunk.mk bareChunk (27 / 10)] =
      [ScoredChunk.mk bareChunk (27 / 10), ScoredChunk.mk bareChunk (27 / 10)] := by
    unfold insertDesc
    rw [if_pos (le_refl _)]
  have h3 : insertDesc (ScoredChunk.mk bareChunk (27 / 10))
      [ScoredChunk.mk bareChunk (27 / 10), ScoredChunk.mk bareChunk (27 / 10)] =
      [ScoredChunk.mk bareChunk (27 / 10), ScoredChunk.mk bareChunk (27 / 10),
        ScoredChunk.mk bareChunk (27 / 10)] := by
    unfold insertDesc
    rw [if_pos (le_refl _)]
  have e : sortDesc [ScoredChunk.mk bareChunk (27 / 10), ScoredChunk.mk bareChunk (27 / 10),
      ScoredChunk.mk bareChunk (27 / 10)] =
      insertDesc (ScoredChunk.mk bareChunk (27 / 10))
        (insertDesc (ScoredChunk.mk bareChunk (27 / 10))
          (insertDesc (ScoredChunk.mk bareChunk (27 / 10)) [])) := rfl
  rw [search_eq_pipeline, hscored, e,
    show insertDesc (ScoredChunk.mk bareChunk (27 / 10)) ([] : List ScoredChunk) =
      [ScoredChunk.mk bareChunk (27 / 10)] from rfl, h2, h3]
  rfl

/-- The context assembled for the triple-`bareChunk` corpus with budget 39:
all three 13-character blocks fit, and the join adds two separators. -/
theorem context_bare3 :
    get_context_for_query [bareChunk, bareChunk, bareChunk] [] 39 =
      joinNl [formatChunk bareChunk, formatChunk bareChunk, formatChunk bareChunk] := by
  have hne : search_relevant_chunks [bareChunk, bareChunk, bareChunk] [] 3 ≠ [] := by
    rw [search_bare3]
    simp
  have hgc := context_join_of_search_ne_nil [bareChunk, bareChunk, bareChunk] [] 39 hne
  have hparts : contextParts [bareChunk, bareChunk, bareChunk] [] 39 =
      [formatChunk bareChunk, formatChunk bareChunk, formatChunk bareChunk] := by
    unfold contextParts contextBlocks
    rw [search_bare3]
    decide
  rw [hgc, hparts]

/-- C1: the relevance score computed by `search_relevant_chunks` equals the
SequenceMatcher ratio of the lowercased query and chunk text, plus 1.5 times
the ratio against the lowercased subtopic, plus 1.2 times the ratio against
the lowercased chapter, plus the keyword bonus `min(keyword_score, 1.0)`
where `keyword_score` adds 0.3 for each word token of the lowercased query
(duplicates counted independently) occurring as a substring of the
lowercased text, subtopic or chapter; and the resulting score is at least
zero. -/
theorem claim1_score_formula (query : PyStr) (c : KnowledgeChunk) :
    totalScore query c =
      ratioOf (lowerStr query) (lowerStr c.chunk) +
        3 / 2 * ratioOf (lowerStr query) (lowerStr c.subtopic) +
        6 / 5 * ratioOf (lowerStr query) (lowerStr c.chapter) +
        min (3 / 10 *
          ((findallWords (lowerStr query)).countP
            (fun kw => isSubstrOf kw (lowerStr c.chunk) ||
              isSubstrOf kw (lowerStr c.subtopic) ||
              isSubstrOf kw (lowerStr c.chapter)) : Rat)) 1 ∧
    0 ≤ totalScore query c := by
  constructor
  · unfold totalScore similarity_score
    dsimp only
    simp only [lowerStr_idem]
    rw [keywordScoreRaw_eq]
    ring
  · unfold totalScore similarity_score
    dsimp only
    have h1 := ratioOf_nonneg (lowerStr (lowerStr query)) (lowerStr (lowerStr c.chunk))
    have h2 := ratioOf_nonneg (lowerStr (lowerStr query)) (lowerStr (lowerStr c.subtopic))
    have h3 := ratioOf_nonneg (lowerStr (lowerStr query)) (lowerStr (lowerStr c.chapter))
    have h4 := keywordScoreRaw_nonneg (lowerStr query) (lowerStr c.chunk)
      (lowerStr c.subtopic) (lowerStr c.chapter)
    have h5 : (0 : Rat) ≤ min (keywordScoreRaw (lowerStr query) (lowerStr c.chunk)
        (lowerStr c.subtopic) (lowerStr c.chapter)) 1 := le_min h4 zero_le_one
    have m2 : (0 : Rat) ≤ ratioOf (lowerStr (lowerStr query)) (lowerStr (lowerStr c.subtopic)) * (3 / 2) :=
      mul_nonneg h2 (by norm_num)
    have m3 : (0 : Rat) ≤ ratioOf (lowerStr (lowerStr query)) (lowerStr (lowerStr c.chapter)) * (6 / 5) :=
      mul_nonneg h3 (by norm_num)
    linarith

/-- C2: for every query, `top_k` and corpus, the search returns at most
`top_k` chunks, all corpus members, all with total score strictly above 0.1,
ordered by descending score; ties keep original corpus order (the sorted
scored list filtered at any fixed score value equals the corpus-order scored
list so filtered); and the empty corpus yields the empty result. -/
theorem claim2_search_contract (kb : List KnowledgeChunk) (query : PyStr) (top_k : Nat) :
    (kb = [] → search_relevant_chunks kb query top_k = []) ∧
    (search_relevant_chunks kb query top_k).length ≤ top_k ∧
    (∀ c ∈ search_relevant_chunks kb query top_k, c ∈ kb) ∧
    (∀ c ∈ search_relevant_chunks kb query top_k, totalScore query c > 1 / 10) ∧
    (search_relevant_chunks kb query top_k).Pairwise
      (fun c1 c2 => totalScore query c2 ≤ totalScore query c1) ∧
    (∀ s : Rat, (sortDesc (scoredOf kb query)).filter (pScore s) =
      (scoredOf kb query).filter (pScore s)) :=
  ⟨fun h => by unfold search_relevant_chunks; rw [if_pos h],
   search_length_le kb query top_k,
   fun c hc => (search_mem_facts kb query top_k c hc).1,
   fun c hc => (search_mem_facts kb query top_k c hc).2,
   search_pairwise kb query top_k,
   fun s => sortDesc_filter_eq (scoredOf kb query) s⟩

/-- Witness for C2 at the empty corpus. -/
theorem claim2_search_contract_witness : search_relevant_chunks [] [] 3 = [] :=
  (claim2_search_contract [] [] 3).1 rfl

/-- C3: the context is assembled from whole formatted blocks of the ranked
chunks, greedily in ranked order: the included blocks form a prefix of the
block list, their total length stays within the budget, and assembly stops
exactly at the first block whose inclusion would overflow the budget. -/
theorem claim3_greedy_context (kb : List KnowledgeChunk) (query : PyStr) (m : Nat) :
    get_context_for_query kb query m =
      (if search_relevant_chunks kb query 3 = [] then fallbackContext
       else joinNl (contextParts kb query m)) ∧
    ∃ i, contextParts kb query m = (contextBlocks kb query).take i ∧
      sumLen (contextParts kb query m) ≤ m ∧
      (i = (contextBlocks kb query).length ∨
        sumLen (contextParts kb query m) +
          ((contextBlocks kb query).getD i []).length > m) := by
  constructor
  · rfl
  · obtain ⟨i, hi, heq, hle, hstop⟩ := greedyParts_spec m (contextBlocks kb query) 0
    have hparts : contextParts kb query m = (contextBlocks kb query).take i := heq
    refine ⟨i, hparts, ?_, ?_⟩
    · rw [hparts]
      rcases hle with h0 | h0
      · subst h0
        simp
      · simpa using h0
    · rcases hstop with h0 | h0
      · exact Or.inl h0
      · right
        rw [hparts]
        simpa using h0

/-- C4 counterexample: when the file exists but fails to parse and the
fallback write inside the `except` handler fails, `load_knowledge_base`
raises to its caller instead of returning the default corpus. -/
theorem claim4_load_counterexample :
    load_knowledge_base (KBWorld.mk true none true false) = Except.error () := rfl

/-- C4 (amended): `load_knowledge_base` never raises provided the default
corpus write in the `except` handler succeeds; under that proviso the
missing-file and parse-failure paths both return the default corpus.  (If
that write fails, the error propagates to the caller — see the
counterexample.) -/
theorem claim4_load_amended (w : KBWorld) (h : w.writeOk2 = true) :
    (∃ l, load_knowledge_base w = Except.ok l) ∧
    (w.fileExists = false → load_knowledge_base w = Except.ok sampleChunks) ∧
    (w.fileExists = true → w.parseResult = none →
      load_knowledge_base w = Except.ok sampleChunks) := by
  obtain ⟨fe, pr, w1, w2⟩ := w
  dsimp only at h
  subst h
  unfold load_knowledge_base createSampleKB
  dsimp only
  cases fe with
  | false =>
    cases w1 with
    | true =>
      exact ⟨⟨sampleChunks, rfl⟩, fun _ => rfl, fun h2 _ => Bool.noConfusion h2⟩
    | false =>
      exact ⟨⟨sampleChunks, rfl⟩, fun _ => rfl, fun h2 _ => Bool.noConfusion h2⟩
  | true =>
    cases pr with
    | none => exact ⟨⟨sampleChunks, rfl⟩, fun h2 => Bool.noConfusion h2, fun _ _ => rfl⟩
    | some d =>
      cases d with
      | jlist l =>
        exact ⟨⟨l, rfl⟩, fun h2 => Bool.noConfusion h2, fun _ h3 => Option.noConfusion h3⟩
      | jdict cf =>
        exact ⟨⟨cf.getD [], rfl⟩, fun h2 => Bool.noConfusion h2,
          fun _ h3 => Option.noConfusion h3⟩

/-- Witness for the amended C4 at a concrete world. -/
theorem claim4_load_amended_witness :
    (∃ l, load_knowledge_base (KBWorld.mk true none true true) = Except.ok l) ∧
    ((KBWorld.mk true none true true).fileExists = false →
      load_knowledge_base (KBWorld.mk true none true true) = Except.ok sampleChunks) ∧
    ((KBWorld.mk true none true true).fileExists = true →
      (KBWorld.mk true none true true).parseResult = none →
      load_knowledge_base (KBWorld.mk true none true true) = Except.ok sampleChunks) :=
  claim4_load_amended (KBWorld.mk true none true true) rfl

/-- C5: whenever the retrieval step returns nothing — in particular on the
empty corpus, and for the empty query on the default corpus — the context is
the fixed fallback string, never the empty string. -/
theorem claim5_fallback :
    (∀ (kb : List KnowledgeChunk) (query : PyStr) (m : Nat),
      search_relevant_chunks kb query 3 = [] →
        get_context_for_query kb query m = fallbackContext) ∧
    (∀ (query : PyStr) (m : Nat), get_context_for_query [] query m = fallbackContext) ∧
    search_relevant_chunks sampleChunks [] 3 = [] ∧
    get_context_for_query sampleChunks [] 1200 = fallbackContext := by
  have hsample : search_relevant_chunks sampleChunks [] 3 = [] := by
    rw [search_eq_pipeline, scoredOf_sample_nil]
    rfl
  refine ⟨context_fallback_of_search_nil, ?_, hsample,
    context_fallback_of_search_nil _ _ _ hsample⟩
  intro query m
  apply context_fallback_of_search_nil
  unfold search_relevant_chunks
  rw [if_pos rfl]

/-- Witness for C5 at the empty corpus. -/
theorem claim5_fallback_witness : get_context_for_query [] [] 0 = fallbackContext :=
  claim5_fallback.1 [] [] 0 rfl

/-- C6: on a missing store file with a successful write, loading yields the
default corpus and leaves a file that a second load parses back to the same
corpus (JSON round-trip modelled as identity on chunk lists). -/
theorem claim6_roundtrip :
    load_knowledge_base (KBWorld.mk false none true true) = Except.ok sampleChunks ∧
    load_knowledge_base (KBWorld.mk true (some (JsonData.jlist sampleChunks)) true true) =
      Except.ok sampleChunks :=
  ⟨rfl, rfl⟩

/-- C7 counterexample: a chunk whose chapter matches the argument but whose
subtopic is the empty string is skipped by `get_chapter_topics`, so the
result is not the list of subtopics of all matching chunks (which here is
the one-element list containing the empty string). -/
theorem claim7_topics_counterexample :
    get_chapter_topics [KnowledgeChunk.mk [] [] (str ("Electricity"))]
      (some (str ("Electricity"))) = [] ∧
    ([KnowledgeChunk.mk [] [] (str ("Electricity"))].filter
        (fun c => isSubstrOf (lowerStr (str ("Electricity"))) (lowerStr c.chapter))).map
      (fun c => c.subtopic) = [([] : PyStr)] ∧
    [([] : PyStr)] ≠ ([] : List PyStr) := by
  refine ⟨?_, ?_, ?_⟩ <;> decide

/-- C7 (amended): for every non-empty category argument,
`get_chapter_topics` returns the distinct non-empty subtopics of exactly the
chunks whose chapter contains the argument case-insensitively, in first-seen
corpus order; on the default corpus the argument "Electricity" yields the six
electricity subtopics in corpus order. -/
theorem claim7_topics_amended :
    (∀ (kb : List KnowledgeChunk) (ch : PyStr), ch ≠ [] →
      get_chapter_topics kb (some ch) = chapterTopicsSpec kb ch) ∧
    get_chapter_topics sampleChunks (some (str ("Electricity"))) =
      [str ("Electric Current"), str ("Electric Potential"), ohmsLaw,
       str ("Resistance"), str ("Resistor Combinations"), str ("Electric Power")] := by
  refine ⟨get_chapter_topics_some_eq, ?_⟩
  decide

/-- Witness for the amended C7 at the default corpus and the argument
"Electricity". -/
theorem claim7_topics_amended_witness :
    get_chapter_topics sampleChunks (some (str ("Electricity"))) =
      chapterTopicsSpec sampleChunks (str ("Electricity")) :=
  claim7_topics_amended.1 sampleChunks (str ("Electricity")) (by decide)

/-- C8: with no argument, `get_chapter_topics` returns exactly the distinct
non-empty subtopic values of the corpus, as a set (membership
characterization, order-insensitive); on the empty corpus the result is
empty. -/
theorem claim8_all_topics (kb : List KnowledgeChunk) :
    (∀ s : PyStr, s ∈ get_chapter_topics kb none ↔
      s ≠ [] ∧ ∃ c ∈ kb, c.subtopic = s) ∧
    get_chapter_topics [] none = [] :=
  ⟨fun s => mem_get_chapter_topics_none kb s, rfl⟩

/-- C9: when the context is not the fallback string, its length is the sum
of the included block lengths plus one newline separator per gap (at most
two gaps since `top_k = 3`), hence at most `max_length + 2`; and the bound
`max_length` itself can be strictly exceeded, as the triple-`bareChunk`
corpus with budget 39 shows (three 13-character blocks plus two
separators). -/
theorem claim9_context_length :
    (∀ (kb : List KnowledgeChunk) (query : PyStr) (m : Nat),
      get_context_for_query kb query m ≠ fallbackContext →
        (get_context_for_query kb query m).length =
          sumLen (contextParts kb query m) + ((contextParts kb query m).length - 1) ∧
        (contextParts kb query m).length ≤ 3 ∧
        (get_context_for_query kb query m).length ≤ m + 2) ∧
    (get_context_for_query [bareChunk, bareChunk, bareChunk] [] 39).length > 39 := by
  constructor
  · intro kb query m h
    have hs : search_relevant_chunks kb query 3 ≠ [] := fun h0 =>
      h (context_fallback_of_search_nil kb query m h0)
    have hgc := context_join_of_search_ne_nil kb query m hs
    obtain ⟨i, hi, heq, hle, hstop⟩ := greedyParts_spec m (contextBlocks kb query) 0
    have hparts : contextParts kb query m = (contextBlocks kb query).take i := heq
    have hlen3 : (contextParts kb query m).length ≤ 3 := by
      rw [hparts, List.length_take]
      have hb : (contextBlocks kb query).length ≤ 3 := by
        unfold contextBlocks
        rw [List.length_map]
        exact search_length_le kb query 3
      exact le_trans (min_le_right _ _) hb
    have hsum : sumLen (contextParts kb query m) ≤ m := by
      rw [hparts]
      rcases hle with h0 | h0
      · subst h0
        simp
      · simpa using h0
    refine ⟨by rw [hgc, joinNl_length], hlen3, ?_⟩
    rw [hgc, joinNl_length]
    omega
  · rw [context_bare3]
    decide

/-- Witness for C9 at the triple-`bareChunk` corpus with budget 39. -/
theorem claim9_context_length_witness :
    (get_context_for_query [bareChunk, bareChunk, bareChunk] [] 39).length =
      sumLen (contextParts [bareChunk, bareChunk, bareChunk] [] 39) +
        ((contextParts [bareChunk, bareChunk, bareChunk] [] 39).length - 1) ∧
    (contextParts [bareChunk, bareChunk, bareChunk] [] 39).length ≤ 3 ∧
    (get_context_for_query [bareChunk, bareChunk, bareChunk] [] 39).length ≤ 39 + 2 :=
  claim9_context_length.1 [bareChunk, bareChunk, bareChunk] [] 39
    (by rw [context_bare3]; decide)

/-- C10: for the empty query, a chunk with empty subtopic and chapter and
non-empty text scores exactly 2.7 (the empty-vs-empty ratio is 1, weighted
1.5 and 1.2), which clears the 0.1 floor, and such a chunk is returned by
the search. -/
theorem claim10_empty_query_score (t : PyStr) (ht : t ≠ []) :
    totalScore [] (KnowledgeChunk.mk t [] []) = 27 / 10 ∧
    (1 : Rat) / 10 < 27 / 10 ∧
    search_relevant_chunks [KnowledgeChunk.mk t [] []] [] 3 =
      [KnowledgeChunk.mk t [] []] := by
  have hs := totalScore_nil_query_bare t ht
  refine ⟨hs, by norm_num, ?_⟩
  have hscored : scoredOf [KnowledgeChunk.mk t [] []] [] =
      [ScoredChunk.mk (KnowledgeChunk.mk t [] []) (27 / 10)] := by
    rw [scoredOf_cons, hs]
    rw [if_pos (by norm_num : (27 : Rat) / 10 > 1 / 10)]
    rfl
  rw [search_eq_pipeline, hscored]
  rfl

/-- Witness for C10 at the one-character text. -/
theorem claim10_empty_query_score_witness :
    totalScore [] (KnowledgeChunk.mk [97] [] []) = 27 / 10 ∧
    (1 : Rat) / 10 < 27 / 10 ∧
    search_relevant_chunks [KnowledgeChunk.mk [97] [] []] [] 3 =
      [KnowledgeChunk.mk [97] [] []] :=
  claim10_empty_query_score [97] (by decide)
